import Mathlib

/-!
Verification of the cvector energy-trading frontend against its
specification.  The TypeScript sources under src/ are shallowly embedded:
JS numbers are rationals (with Option ℚ where NaN or a missing value is
observable), JS truthiness checks are made explicit, and the network is
abstracted as a server oracle passed to the functions that call fetch.
Backend components that are absent from the repository snapshot (the
clearing engine, the settlement engine, submitBid validation) are
modelled from the spec and marked as such in their doc comments.
-/

/-- Bid status values, a closed variant as in order.ts (BidStatus). -/
inductive BidStatus
  | PENDING
  | EXECUTED
  | REJECTED
deriving DecidableEq, Repr

/-- Order side as in order.ts (OrderSide). -/
inductive OrderSide
  | BUY
  | SELL
deriving DecidableEq, Repr

/-- A submitted bid as returned by the API (order.ts, BidOrder). -/
structure BidOrder where
  id : String
  hour : Int
  price : ℚ
  quantity : ℚ
  user_id : String
  timestamp : String
  status : BidStatus
  clearing_price : Option ℚ := none
deriving DecidableEq, Repr

/-- A row of the bulk order form (order.ts, OrderDraft).  hour, price and
quantity are nullable; none models the JS null. -/
structure OrderDraft where
  id : String
  hour : Option Int
  side : OrderSide
  price : Option ℚ
  quantity : Option ℚ
deriving DecidableEq, Repr

/-- JS truthiness of a nullable number: null and 0 are falsy.  A NaN is
not representable here; where NaN matters (market data) the price field
itself is an Option and none stands for NaN. -/
def truthyOptInt : Option Int → Bool
  | none => false
  | some n => decide (n ≠ 0)

/-- JS truthiness of a nullable rational: null and 0 are falsy. -/
def truthyOptQ : Option ℚ → Bool
  | none => false
  | some q => decide (q ≠ 0)

/-- JS Math.round: round half toward positive infinity. -/
def jsRound (q : ℚ) : Int := ⌊q + 1 / 2⌋

namespace OrdersService

/-- The field precheck of OrdersService.submitOrder: the function throws
the error message about missing required fields exactly when
!order.hour || !order.price || !order.quantity || !order.side holds.
side is a member of a two-value enum and is always truthy, so only the
three numeric fields matter.  Note the JS falsy check: hour = 0 fails it. -/
def submitOrderFieldsOk (o : OrderDraft) : Bool :=
  truthyOptInt o.hour && truthyOptQ o.price && truthyOptQ o.quantity

/-- OrdersService.submitOrder with the network abstracted: the server
oracle says whether the POST succeeds.  Result true means the promise
resolves; false means it throws (precheck failure or HTTP error). -/
def submitOrder (server : OrderDraft → Bool) (o : OrderDraft) : Bool :=
  submitOrderFieldsOk o && server o

/-- The filter at the top of OrdersService.submitOrders: keeps the drafts
whose hour, price and quantity are all non-null. -/
def validOf (orders : List OrderDraft) : List OrderDraft :=
  orders.filter fun o => o.hour.isSome && o.price.isSome && o.quantity.isSome

/-- The submission loop of OrdersService.submitOrders: walks the valid
orders left to right and counts successes and errors. -/
def submitLoop (server : OrderDraft → Bool) (orders : List OrderDraft) :
    Nat × Nat :=
  orders.foldl
    (fun acc o => if submitOrder server o then (acc.1 + 1, acc.2) else (acc.1, acc.2 + 1))
    (0, 0)

/-- OrdersService.submitOrders: filters the valid drafts, throws when none
remain, submits each one counting successes and errors, throws when every
attempt failed, and otherwise returns the success count. -/
def submitOrders (server : OrderDraft → Bool) (orders : List OrderDraft) :
    Except String Nat :=
  let validOrders := validOf orders
  if validOrders.length = 0 then
    Except.error "No valid orders to submit"
  else
    let counts := submitLoop server validOrders
    if 0 < counts.2 ∧ counts.1 = 0 then
      Except.error "All orders failed"
    else
      Except.ok counts.1

end OrdersService

namespace UseOrders

/-- The bid book held by the backend, observed by the hook through
fetchBids. -/
structure ServerBook where
  bids : List BidOrder
deriving DecidableEq, Repr

/-- The useOrders hook submitOrders callback.  In the source the call to
OrdersService.submitOrders is commented out: the body only refreshes the
local order list from the server (fetchOrders, which swallows its own
errors) and returns true.  The result is the returned flag, the server
book after the call, and the local orders state after the refresh. -/
def hookSubmitOrders (_drafts : List OrderDraft) (book : ServerBook) :
    Bool × ServerBook × List BidOrder :=
  (true, book, book.bids)

/-- Modelled from the spec: the backend bid-submission path that the hook
is specified to trigger, absent from the repository snapshot.  On success
each bid is appended to the book with status PENDING and
submittedAt = simulatedTime. -/
def specAppendPending (simulatedTime : String) (userId : String)
    (d : OrderDraft) (book : ServerBook) : ServerBook :=
  match d.hour, d.price, d.quantity with
  | some h, some p, some q =>
      { bids := book.bids ++
          [{ id := d.id, hour := h, price := p, quantity := q,
             user_id := userId, timestamp := simulatedTime,
             status := BidStatus.PENDING }] }
  | _, _, _ => book

end UseOrders

namespace UseOrdersSummary

/-- The summary record computed by useOrders.getOrderSummary
(order.ts, OrderSummary). -/
structure OrderSummary where
  totalOrders : Nat
  executedOrders : Nat
  pendingOrders : Nat
  rejectedOrders : Nat
  totalVolume : ℚ
  averageBidPrice : ℚ
  successRate : Int
deriving DecidableEq, Repr

/-- useOrders.getOrderSummary: counts by status, total volume, average
bid price and a rounded success percentage, with the empty-list guards of
the source. -/
def getOrderSummary (orders : List BidOrder) : OrderSummary :=
  let executedOrders := (orders.filter fun o => decide (o.status = BidStatus.EXECUTED)).length
  let pendingOrders := (orders.filter fun o => decide (o.status = BidStatus.PENDING)).length
  let rejectedOrders := (orders.filter fun o => decide (o.status = BidStatus.REJECTED)).length
  let totalVolume := orders.foldl (fun sum o => sum + o.quantity) 0
  let averageBidPrice :=
    if 0 < orders.length then
      (orders.foldl (fun sum o => sum + o.price) 0) / (orders.length : ℚ)
    else 0
  let successRate :=
    if 0 < orders.length then
      jsRound (((executedOrders : ℚ) / (orders.length : ℚ)) * 100)
    else 0
  { totalOrders := orders.length
    executedOrders := executedOrders
    pendingOrders := pendingOrders
    rejectedOrders := rejectedOrders
    totalVolume := totalVolume
    averageBidPrice := averageBidPrice
    successRate := successRate }

end UseOrdersSummary

/-- The JS expression v || d on a nullable number: null, undefined, NaN
and 0 are falsy and give the default. -/
def jsNumOr (v : Option ℚ) (d : ℚ) : ℚ :=
  match v with
  | none => d
  | some q => if q ≠ 0 then q else d

namespace PnLService

/-- A trade as returned by the API (pnl.ts, Trade).  pnl and
real_time_avg_price are optional fields. -/
structure Trade where
  id : String
  bid_id : String
  executed_price : ℚ
  quantity : ℚ
  hour : Int
  timestamp : String
  pnl : Option ℚ := none
  real_time_avg_price : Option ℚ := none
deriving DecidableEq, Repr

/-- The summary record of PnLService.calculatePnLSummary
(pnl.ts, PnLSummary). -/
structure PnLSummary where
  totalPnl : ℚ
  totalTrades : Nat
  profitableTrades : Nat
  losingTrades : Nat
  averagePnl : ℚ
  bestTrade : ℚ
  worstTrade : ℚ
deriving DecidableEq, Repr

/-- JS Math.max over a spread nonempty list, as used on pnlValues. -/
def listMax : List ℚ → ℚ
  | [] => 0
  | q :: rest => rest.foldl max q

/-- JS Math.min over a spread nonempty list, as used on pnlValues. -/
def listMin : List ℚ → ℚ
  | [] => 0
  | q :: rest => rest.foldl min q

/-- PnLService.calculatePnLSummary: early return of all zeros on the
empty list, otherwise statistics over pnlValues = trades.map(t => t.pnl || 0). -/
def calculatePnLSummary (trades : List Trade) : PnLSummary :=
  if trades.length = 0 then
    { totalPnl := 0, totalTrades := 0, profitableTrades := 0,
      losingTrades := 0, averagePnl := 0, bestTrade := 0, worstTrade := 0 }
  else
    let pnlValues := trades.map fun t => jsNumOr t.pnl 0
    let totalPnl := pnlValues.foldl (fun sum pnl => sum + pnl) 0
    let profitableTrades := (pnlValues.filter fun pnl => decide (0 < pnl)).length
    let losingTrades := (pnlValues.filter fun pnl => decide (pnl < 0)).length
    { totalPnl := totalPnl
      totalTrades := trades.length
      profitableTrades := profitableTrades
      losingTrades := losingTrades
      averagePnl := totalPnl / (trades.length : ℚ)
      bestTrade := listMax pnlValues
      worstTrade := listMin pnlValues }

end PnLService

namespace OrderForm

/-- A fresh empty order row, as created by the form (id row-(n+1), BUY
side, null numeric fields). -/
def freshRow (n : Nat) : OrderDraft :=
  { id := "row-" ++ toString n, hour := none, side := OrderSide.BUY,
    price := none, quantity := none }

/-- The initial form state: a single empty row. -/
def initialRows : List OrderDraft := [freshRow 1]

/-- OrderForm.addOrderRow: returns the rows unchanged when there are
already 10 or more, otherwise appends a fresh row. -/
def addOrderRow (rows : List OrderDraft) : List OrderDraft :=
  if 10 ≤ rows.length then rows
  else rows ++ [freshRow (rows.length + 1)]

/-- OrderForm.removeOrderRow: drops the rows with the given id. -/
def removeOrderRow (id : String) (rows : List OrderDraft) : List OrderDraft :=
  rows.filter fun r => decide (r.id ≠ id)

/-- A Partial update of an OrderDraft, as passed to updateOrderRow: each
field is either absent (keep the current value) or present (overwrite). -/
structure DraftUpdate where
  hour : Option (Option Int) := none
  side : Option OrderSide := none
  price : Option (Option ℚ) := none
  quantity : Option (Option ℚ) := none

/-- The JS spread \x7b ...row, ...updates \x7d applied to one row. -/
def applyUpdate (u : DraftUpdate) (r : OrderDraft) : OrderDraft :=
  { r with hour := u.hour.getD r.hour, side := u.side.getD r.side,
           price := u.price.getD r.price, quantity := u.quantity.getD r.quantity }

/-- OrderForm.updateOrderRow: maps the update over the rows, touching
only the row with the given id. -/
def updateOrderRow (id : String) (u : DraftUpdate) (rows : List OrderDraft) :
    List OrderDraft :=
  rows.map fun r => if r.id = id then applyUpdate u r else r

/-- The reset performed on successful submit and on close: back to a
single empty row. -/
def resetRows : List OrderDraft := [freshRow 1]

end OrderForm

namespace QuickTrade

/-- Outcome of the validation sequence in QuickTrade.handleSubmit. -/
inductive Outcome
  | missingFields
  | invalidPrice
  | invalidQuantity
  | submitted
deriving DecidableEq, Repr

/-- QuickTrade.handleSubmit validation, in source order: the falsy check
!hour || !price || !quantity first (note that hour = 0 is falsy), then
price <= 0, then quantity <= 0; only then is the order submitted. -/
def handleSubmitValidate (hour : Option Int) (price quantity : Option ℚ) :
    Outcome :=
  if !(truthyOptInt hour && truthyOptQ price && truthyOptQ quantity) then
    Outcome.missingFields
  else if price.getD 0 ≤ 0 then
    Outcome.invalidPrice
  else if quantity.getD 0 ≤ 0 then
    Outcome.invalidQuantity
  else
    Outcome.submitted

end QuickTrade

namespace TradingControls

/-- JS truncated remainder on integers, the semantics of the % operator. -/
def jsMod (a n : Int) : Int := Int.tmod a n

/-- The cutoffH derived value: Math.max(0, Math.floor(secondsToCutoff / 3600)). -/
def cutoffH (secondsToCutoff : Int) : Int :=
  max 0 ⌊(secondsToCutoff : ℚ) / 3600⌋

/-- The cutoffM derived value:
Math.max(0, Math.floor((secondsToCutoff % 3600) / 60)). -/
def cutoffM (secondsToCutoff : Int) : Int :=
  max 0 ⌊(jsMod secondsToCutoff 3600 : ℚ) / 60⌋

/-- The cutoffS derived value: Math.max(0, secondsToCutoff % 60). -/
def cutoffS (secondsToCutoff : Int) : Int :=
  max 0 (jsMod secondsToCutoff 60)

/-- Modelled from the spec: the backend derived value secondsToCutoff =
cutoffTime - simulatedTime clamped to be nonnegative; the backend
simulation controller is absent from the repository snapshot. -/
def secondsToCutoff (cutoffTime simulatedTime : Int) : Int :=
  max 0 (cutoffTime - simulatedTime)

end TradingControls

namespace MarketService

/-- Market identifier of a converted item (market.ts, MarketType). -/
inductive MarketType
  | REAL_TIME
  | DAY_AHEAD
deriving DecidableEq, Repr

/-- One raw point of the summary payload: a price (none models NaN,
which is falsy like 0) and a timestamp string. -/
structure RawPoint where
  price : Option ℚ
  timestamp : String
deriving DecidableEq, Repr

/-- The raw summary payload given to convertToMarketData: each market
point may be missing altogether. -/
structure RawSummary where
  day_ahead : Option RawPoint := none
  real_time : Option RawPoint := none
deriving DecidableEq, Repr

/-- A converted market data item (market.ts, MarketData), restricted to
the fields convertToMarketData sets. -/
structure MarketData where
  id : String
  price : ℚ
  timestamp : String
  market : MarketType
  source : String
deriving DecidableEq, Repr

/-- Truthiness of the guard rawData?.m?.price: the point must be present
and its price truthy (nonzero and not NaN). -/
def pointTruthy : Option RawPoint → Bool
  | none => false
  | some p => truthyOptQ p.price

/-- The timestamp written into an item: toIso applied to the given
timestamp when it is truthy (nonempty), and the current time otherwise. -/
def itemTimestamp (toIso : String → String) (now : String) (ts : String) :
    String :=
  if ts ≠ "" then toIso ts else now

/-- The item pushed for one market when its guard passed: the price is
Number(price) || 0, which for a truthy price is the price itself. -/
def convertPoint (toIso : String → String) (now : String) (id : String)
    (market : MarketType) (p : RawPoint) : MarketData :=
  { id := id, price := jsNumOr p.price 0,
    timestamp := itemTimestamp toIso now p.timestamp,
    market := market, source := "gridstatus" }

/-- MarketService.convertToMarketData: pushes a DAY_AHEAD item when the
day_ahead price is truthy, then a REAL_TIME item when the real_time price
is truthy.  Date conversion is abstracted by toIso and now. -/
def convertToMarketData (toIso : String → String) (now : String)
    (rawData : RawSummary) : List MarketData :=
  (match rawData.day_ahead with
    | some p =>
        if truthyOptQ p.price then
          [convertPoint toIso now "day_ahead" MarketType.DAY_AHEAD p]
        else []
    | none => []) ++
  (match rawData.real_time with
    | some p =>
        if truthyOptQ p.price then
          [convertPoint toIso now "real_time" MarketType.REAL_TIME p]
        else []
    | none => [])

end MarketService

namespace Backend

/-- Modelled from the spec: a bid record of the backend bid book, absent
from the repository snapshot. -/
structure Bid where
  id : String
  hour : Int
  side : OrderSide
  limitPrice : ℚ
  quantity : ℚ
  status : BidStatus
  clearingPrice : Option ℚ := none
deriving DecidableEq, Repr

/-- Modelled from the spec: the Clearing Engine step on one pending bid,
absent from the repository snapshot.  clearingPrice is the day-ahead
price for the bid hour; a BUY bid executes iff limitPrice is at least the
clearing price, a SELL bid iff limitPrice is at most the clearing price,
and otherwise the bid is rejected.  On execution the clearing price is
recorded on the bid. -/
def clearBid (dayAhead : Int → ℚ) (b : Bid) : Bid :=
  let cp := dayAhead b.hour
  let executes :=
    match b.side with
    | OrderSide.BUY => decide (cp ≤ b.limitPrice)
    | OrderSide.SELL => decide (b.limitPrice ≤ cp)
  if executes then
    { b with status := BidStatus.EXECUTED, clearingPrice := some cp }
  else
    { b with status := BidStatus.REJECTED }

/-- Modelled from the spec: the Settlement Engine P&L formula, absent
from the repository snapshot.  For a BUY side the profit is
quantity * (realTimeAveragePrice - executedPrice); for SELL it is
quantity * (executedPrice - realTimeAveragePrice). -/
def tradePnl (side : OrderSide) (quantity executedPrice realTimeAvg : ℚ) : ℚ :=
  match side with
  | OrderSide.BUY => quantity * (realTimeAvg - executedPrice)
  | OrderSide.SELL => quantity * (executedPrice - realTimeAvg)

/-- Modelled from the spec: settlement of one trade, absent from the
repository snapshot.  A trade whose realTimeAveragePrice is known gets
pnl set by the formula; one whose average is still null keeps pnl null. -/
def settleTrade (side : OrderSide) (t : PnLService.Trade) : PnLService.Trade :=
  match t.real_time_avg_price with
  | none => t
  | some avg =>
      { t with pnl := some (tradePnl side t.quantity t.executed_price avg) }

/-- Failure modes of backend bid submission (spec section 4.3). -/
inductive SubmitError
  | InvalidHour
  | InvalidPrice
  | InvalidQuantity
  | BiddingClosed
deriving DecidableEq, Repr

/-- Modelled from the spec: backend submitBid validation, absent from the
repository snapshot.  Checks run in order: hour outside 0..23 gives
InvalidHour, nonpositive price gives InvalidPrice, nonpositive quantity
gives InvalidQuantity, and bidding closed gives BiddingClosed; otherwise
the submission is accepted. -/
def submitBidValidate (canPlaceBids : Bool) (hour : Int)
    (price quantity : ℚ) : Except SubmitError Unit :=
  if hour < 0 ∨ 23 < hour then Except.error SubmitError.InvalidHour
  else if price ≤ 0 then Except.error SubmitError.InvalidPrice
  else if quantity ≤ 0 then Except.error SubmitError.InvalidQuantity
  else if !canPlaceBids then Except.error SubmitError.BiddingClosed
  else Except.ok ()

end Backend

/-- The Scenario A order draft: hour 14, BUY, price 50, quantity 10. -/
def draftA : OrderDraft :=
  { id := "row-1", hour := some 14, side := OrderSide.BUY,
    price := some 50, quantity := some 10 }

/-- A draft for delivery hour 0 with valid positive price and quantity. -/
def draftHourZero : OrderDraft :=
  { id := "row-2", hour := some 0, side := OrderSide.BUY,
    price := some 50, quantity := some 10 }

/-- A server oracle that accepts every POST. -/
def acceptAll : OrderDraft → Bool := fun _ => true

/-- The Scenario A day-ahead series: price 45 for hour 14. -/
def dayAheadA : Int → ℚ := fun h => if h = 14 then 45 else 0

/-- The Scenario A pending bid. -/
def bidA : Backend.Bid :=
  { id := "a", hour := 14, side := OrderSide.BUY, limitPrice := 50,
    quantity := 10, status := BidStatus.PENDING }

/-- The Scenario C trade: executed at 45 for 10 MWh in hour 14, with a
real-time average of 52. -/
def tradeA : PnLService.Trade :=
  { id := "t1", bid_id := "a", executed_price := 45, quantity := 10,
    hour := 14, timestamp := "ts", real_time_avg_price := some 52 }

/-- A concrete executed order used to instantiate summary statements. -/
def ordExec : BidOrder :=
  { id := "b1", hour := 14, price := 50, quantity := 10, user_id := "u",
    timestamp := "ts", status := BidStatus.EXECUTED,
    clearing_price := some 45 }

theorem jsNumOr_ne_zero {v : Option ℚ} (h : truthyOptQ v = true) :
    jsNumOr v 0 ≠ 0 := by
  cases v with
  | none => simp [truthyOptQ] at h
  | some q =>
      simp only [truthyOptQ, decide_eq_true_eq] at h
      simp [jsNumOr, h]

theorem foldl_add_shift (l : List ℚ) (a : ℚ) :
    l.foldl (fun sum pnl => sum + pnl) a = a + l.sum := by
  induction l generalizing a with
  | nil => simp
  | cons q t ih => simp [List.foldl_cons, ih, add_assoc]

theorem map_jsNumOr_sum (trades : List PnLService.Trade) :
    (trades.map fun t => jsNumOr t.pnl 0).sum =
      (trades.filterMap PnLService.Trade.pnl).sum := by
  induction trades with
  | nil => rfl
  | cons t rest ih =>
      cases h : t.pnl with
      | none =>
          simp only [List.map_cons, List.sum_cons, List.filterMap_cons, h, ih]
          simp [jsNumOr]
      | some q =>
          simp only [List.map_cons, List.sum_cons, List.filterMap_cons, h, ih]
          by_cases hq : q = 0 <;> simp [jsNumOr, hq]

theorem submitLoop_foldl (server : OrderDraft → Bool)
    (l : List OrderDraft) (a : Nat × Nat) :
    l.foldl
      (fun acc o => if OrdersService.submitOrder server o then
        (acc.1 + 1, acc.2) else (acc.1, acc.2 + 1)) a =
      (a.1 + l.countP (OrdersService.submitOrder server),
       a.2 + l.countP fun o => !OrdersService.submitOrder server o) := by
  induction l generalizing a with
  | nil => simp
  | cons o t ih =>
      by_cases hp : OrdersService.submitOrder server o = true <;>
        simp [List.countP_cons, hp, ih] <;> omega

theorem submitLoop_eq (server : OrderDraft → Bool) (l : List OrderDraft) :
    OrdersService.submitLoop server l =
      (l.countP (OrdersService.submitOrder server),
       l.countP fun o => !OrdersService.submitOrder server o) := by
  simpa [OrdersService.submitLoop] using submitLoop_foldl server l (0, 0)

theorem countP_not_partition (p : OrderDraft → Bool) (l : List OrderDraft) :
    l.countP p + l.countP (fun o => !p o) = l.length := by
  induction l with
  | nil => rfl
  | cons o t ih =>
      by_cases hp : p o = true <;> simp [List.countP_cons, hp] <;> omega

theorem status_partition (orders : List BidOrder) :
    (orders.filter fun o => decide (o.status = BidStatus.EXECUTED)).length +
      (orders.filter fun o => decide (o.status = BidStatus.PENDING)).length +
      (orders.filter fun o => decide (o.status = BidStatus.REJECTED)).length =
      orders.length := by
  induction orders with
  | nil => rfl
  | cons o rest ih =>
      cases h : o.status <;> simp [List.filter_cons, h] <;> omega

/-- C1: the useOrders hook submitOrders is claimed to report success only
after appending each valid draft to the bid book with status PENDING.
Evaluating the hook on a batch holding the valid Scenario A draft shows
it returns true while the server book is left untouched and holds no
PENDING bid, because the OrdersService.submitOrders call is commented out
in the source; the spec-modelled submission path would have appended one
PENDING bid. -/
theorem C1_hook_success_without_submission :
    (UseOrders.hookSubmitOrders [draftA] { bids := [] }).1 = true ∧
    (UseOrders.hookSubmitOrders [draftA] { bids := [] }).2.1 =
      { bids := [] } ∧
    ((UseOrders.hookSubmitOrders [draftA] { bids := [] }).2.1.bids.filter
      fun b => decide (b.status = BidStatus.PENDING)) = [] ∧
    ((UseOrders.specAppendPending "2024-09-02T10:00" "u" draftA
      { bids := [] }).bids.filter
        fun b => decide (b.status = BidStatus.PENDING)).length = 1 := by
  refine ⟨rfl, rfl, rfl, rfl⟩

/-- C3: bid submission is claimed to accept every bid whose hour lies in
0..23 — hour 0 included — with positive price and quantity while bidding
is open.  Evaluating the frontend validators at hour 0 shows both reject
it: the JS falsy check !order.hour in OrdersService.submitOrder and the
identical check in QuickTrade.handleSubmit treat hour 0 as a missing
field, while the spec-modelled backend validation accepts hour 0 and
rejects hour 24 with InvalidHour; a nonzero hour passes the frontend
checks. -/
theorem C3_hour_zero_rejected_by_frontend :
    OrdersService.submitOrderFieldsOk draftHourZero = false ∧
    QuickTrade.handleSubmitValidate (some 0) (some 50) (some 10) =
      QuickTrade.Outcome.missingFields ∧
    Backend.submitBidValidate true 0 50 10 = Except.ok () ∧
    Backend.submitBidValidate true 24 50 10 =
      Except.error Backend.SubmitError.InvalidHour ∧
    QuickTrade.handleSubmitValidate (some 5) (some 50) (some 10) =
      QuickTrade.Outcome.submitted := by
  refine ⟨rfl, rfl, rfl, rfl, rfl⟩

/-- C5: the total P&L of calculatePnLSummary equals the sum of the
non-null pnl values of the trades, and is 0 for the empty trade list. -/
theorem C5_total_pnl (trades : List PnLService.Trade) :
    (PnLService.calculatePnLSummary trades).totalPnl =
      (trades.filterMap PnLService.Trade.pnl).sum ∧
    (PnLService.calculatePnLSummary ([] : List PnLService.Trade)).totalPnl
      = 0 := by
  constructor
  · cases trades with
    | nil => rfl
    | cons t rest =>
        simp only [PnLService.calculatePnLSummary, List.length_cons]
        rw [if_neg (by omega)]
        simp only [foldl_add_shift, zero_add]
        exact map_jsNumOr_sum (t :: rest)
  · rfl

/-- C8: secondsToCutoff is the cutoff-minus-now difference clamped to be
nonnegative, and the hour, minute and second countdown components that
TradingControls derives from any integer secondsToCutoff — negative
values included — are each nonnegative. -/
theorem C8_countdown_nonneg (s cutoffTime simulatedTime : Int) :
    TradingControls.secondsToCutoff cutoffTime simulatedTime =
      max 0 (cutoffTime - simulatedTime) ∧
    0 ≤ TradingControls.secondsToCutoff cutoffTime simulatedTime ∧
    0 ≤ TradingControls.cutoffH s ∧
    0 ≤ TradingControls.cutoffM s ∧
    0 ≤ TradingControls.cutoffS s :=
  ⟨rfl, le_max_left 0 _, le_max_left 0 _, le_max_left 0 _, le_max_left 0 _⟩

/-- C2: for every pending bid, the clearing step executes a BUY bid
exactly when its limit price is at least the clearing price
dayAhead[bid.hour] and a SELL bid exactly when its limit price is at most
the clearing price, rejecting otherwise and recording the clearing price
on execution; the Scenario A BUY bid at 50 for hour 14 against a
day-ahead price of 45 is executed with clearing price 45. -/
theorem C2_clearing_rule (dayAhead : Int → ℚ) (b : Backend.Bid)
    (h : b.status = BidStatus.PENDING) :
    ((Backend.clearBid dayAhead b).status = BidStatus.EXECUTED ↔
      ((b.side = OrderSide.BUY ∧ dayAhead b.hour ≤ b.limitPrice) ∨
       (b.side = OrderSide.SELL ∧ b.limitPrice ≤ dayAhead b.hour))) ∧
    ((Backend.clearBid dayAhead b).status = BidStatus.REJECTED ↔
      ¬((b.side = OrderSide.BUY ∧ dayAhead b.hour ≤ b.limitPrice) ∨
        (b.side = OrderSide.SELL ∧ b.limitPrice ≤ dayAhead b.hour))) ∧
    ((Backend.clearBid dayAhead b).status = BidStatus.EXECUTED →
      (Backend.clearBid dayAhead b).clearingPrice = some (dayAhead b.hour)) ∧
    (Backend.clearBid dayAheadA bidA).status = BidStatus.EXECUTED ∧
    (Backend.clearBid dayAheadA bidA).clearingPrice = some 45 := by
  refine ⟨?_, ?_, ?_, by decide, by decide⟩ <;>
    · cases hb : b.side with
      | BUY =>
          by_cases hc : dayAhead b.hour ≤ b.limitPrice <;>
            simp [Backend.clearBid, hb, hc]
      | SELL =>
          by_cases hc : b.limitPrice ≤ dayAhead b.hour <;>
            simp [Backend.clearBid, hb, hc]

theorem C2_witness :
    bidA.status = BidStatus.PENDING ∧
    ((Backend.clearBid dayAheadA bidA).status = BidStatus.EXECUTED ↔
      ((bidA.side = OrderSide.BUY ∧ dayAheadA bidA.hour ≤ bidA.limitPrice) ∨
       (bidA.side = OrderSide.SELL ∧ bidA.limitPrice ≤ dayAheadA bidA.hour))) :=
  ⟨rfl, (C2_clearing_rule dayAheadA bidA rfl).1⟩

/-- C4: settlement of a trade whose real-time average price is known sets
pnl to quantity * (realTimeAveragePrice - executedPrice) on the BUY side
and quantity * (executedPrice - realTimeAveragePrice) on the SELL side;
the Scenario C trade (BUY, 10 MWh at 45, average 52) has pnl 70. -/
theorem C4_pnl_formula (side : OrderSide) (t : PnLService.Trade) (avg : ℚ)
    (h : t.real_time_avg_price = some avg) :
    (Backend.settleTrade side t).pnl = some
      (match side with
       | OrderSide.BUY => t.quantity * (avg - t.executed_price)
       | OrderSide.SELL => t.quantity * (t.executed_price - avg)) ∧
    Backend.tradePnl OrderSide.BUY 10 45 52 = 70 := by
  constructor
  · cases side <;> simp [Backend.settleTrade, Backend.tradePnl, h]
  · norm_num [Backend.tradePnl]

theorem C4_witness :
    tradeA.real_time_avg_price = some 52 ∧
    (Backend.settleTrade OrderSide.BUY tradeA).pnl =
      some (tradeA.quantity * (52 - tradeA.executed_price)) :=
  ⟨rfl, (C4_pnl_formula OrderSide.BUY tradeA 52 rfl).1⟩

/-- C6 counterexample: a batch holding the valid Scenario A draft and a
draft for hour 0 (non-null fields, so it enters the submission loop, but
the falsy precheck of submitOrder rejects it) completes as Except.ok 1
with no error reported, even though one of its orders failed — the claim
that a partially failed batch always reports a recoverable error is
false on this input. -/
theorem C6_counterexample :
    draftHourZero ∈ OrdersService.validOf [draftA, draftHourZero] ∧
    OrdersService.submitOrder acceptAll draftHourZero = false ∧
    OrdersService.submitOrder acceptAll draftA = true ∧
    OrdersService.submitOrders acceptAll [draftA, draftHourZero] =
      Except.ok 1 := by
  refine ⟨by decide, rfl, rfl, rfl⟩

/-- C6 amended: submitOrders raises an error only when the whole batch
fails; a batch in which at least one attempted order succeeds and at
least one fails completes without error, returning only the count of
successes, which is positive and strictly below the number of attempted
orders. -/
theorem C6_amended_partial_batch (server : OrderDraft → Bool)
    (orders : List OrderDraft) (ok bad : OrderDraft)
    (hokmem : ok ∈ OrdersService.validOf orders)
    (hoks : OrdersService.submitOrder server ok = true)
    (hbadmem : bad ∈ OrdersService.validOf orders)
    (hbads : OrdersService.submitOrder server bad = false) :
    ∃ n, OrdersService.submitOrders server orders = Except.ok n ∧
      0 < n ∧ n < (OrdersService.validOf orders).length := by
  have hpos : 0 < (OrdersService.validOf orders).countP
      (OrdersService.submitOrder server) :=
    List.countP_pos_iff.mpr ⟨ok, hokmem, hoks⟩
  have hneg : 0 < (OrdersService.validOf orders).countP
      (fun o => !OrdersService.submitOrder server o) :=
    List.countP_pos_iff.mpr ⟨bad, hbadmem, by simp [hbads]⟩
  have hsum := countP_not_partition
    (OrdersService.submitOrder server) (OrdersService.validOf orders)
  have hne : ¬((OrdersService.validOf orders).length = 0) := by omega
  refine ⟨(OrdersService.validOf orders).countP
    (OrdersService.submitOrder server), ?_, hpos, by omega⟩
  unfold OrdersService.submitOrders
  rw [if_neg hne, submitLoop_eq]
  rw [if_neg ?hcond]
  case hcond =>
    rintro ⟨-, h0⟩
    simp only at h0
    omega

theorem C6_amended_witness :
    ∃ n, OrdersService.submitOrders acceptAll [draftA, draftHourZero] =
      Except.ok n ∧ 0 < n ∧
      n < (OrdersService.validOf [draftA, draftHourZero]).length :=
  C6_amended_partial_batch acceptAll [draftA, draftHourZero] draftA
    draftHourZero (by decide) rfl (by decide) rfl

/-- C7: the bulk order form never exceeds 10 rows — the initial state and
the reset state have at most 10 rows, every form operation preserves the
bound, and addOrderRow on a form that already has 10 rows returns the
rows unchanged. -/
theorem C7_form_cap (rows : List OrderDraft) (id : String)
    (u : OrderForm.DraftUpdate) (h : rows.length ≤ 10) :
    OrderForm.initialRows.length ≤ 10 ∧
    (OrderForm.addOrderRow rows).length ≤ 10 ∧
    (OrderForm.removeOrderRow id rows).length ≤ 10 ∧
    (OrderForm.updateOrderRow id u rows).length ≤ 10 ∧
    OrderForm.resetRows.length ≤ 10 ∧
    (rows.length = 10 → OrderForm.addOrderRow rows = rows) := by
  refine ⟨by decide, ?_, ?_, ?_, by decide, ?_⟩
  · unfold OrderForm.addOrderRow
    by_cases hc : 10 ≤ rows.length
    · rw [if_pos hc]; exact h
    · rw [if_neg hc]; simp; omega
  · exact le_trans (List.length_filter_le _ _) h
  · simpa [OrderForm.updateOrderRow] using h
  · intro h10
    unfold OrderForm.addOrderRow
    rw [if_pos (by omega)]

theorem C7_witness :
    (List.replicate 10 (OrderForm.freshRow 1)).length ≤ 10 ∧
    OrderForm.addOrderRow (List.replicate 10 (OrderForm.freshRow 1)) =
      List.replicate 10 (OrderForm.freshRow 1) :=
  ⟨by simp, (C7_form_cap (List.replicate 10 (OrderForm.freshRow 1)) "row-1"
      {} (by simp)).2.2.2.2.2 (by simp)⟩

/-- C9: getOrderSummary counts partition the order list — executed plus
pending plus rejected equals totalOrders equals the list length — the
success rate of a nonempty list is the rounded percentage of executed
orders, and the empty list yields zero totalOrders, averageBidPrice and
successRate. -/
theorem C9_order_summary (orders : List BidOrder) :
    (UseOrdersSummary.getOrderSummary orders).executedOrders +
      (UseOrdersSummary.getOrderSummary orders).pendingOrders +
      (UseOrdersSummary.getOrderSummary orders).rejectedOrders =
      (UseOrdersSummary.getOrderSummary orders).totalOrders ∧
    (UseOrdersSummary.getOrderSummary orders).totalOrders = orders.length ∧
    (orders.length ≠ 0 →
      (UseOrdersSummary.getOrderSummary orders).successRate =
        jsRound ((100 *
          ((UseOrdersSummary.getOrderSummary orders).executedOrders : ℚ)) /
          (((UseOrdersSummary.getOrderSummary orders).totalOrders : ℚ)))) ∧
    (UseOrdersSummary.getOrderSummary ([] : List BidOrder)).totalOrders
      = 0 ∧
    (UseOrdersSummary.getOrderSummary ([] : List BidOrder)).averageBidPrice
      = 0 ∧
    (UseOrdersSummary.getOrderSummary ([] : List BidOrder)).successRate
      = 0 := by
  refine ⟨?_, rfl, ?_, rfl, rfl, rfl⟩
  · simpa [UseOrdersSummary.getOrderSummary] using status_partition orders
  · intro hne
    simp only [UseOrdersSummary.getOrderSummary]
    rw [if_pos (by omega)]
    congr 1
    ring

theorem C9_witness :
    (UseOrdersSummary.getOrderSummary [ordExec]).successRate =
      jsRound ((100 *
        ((UseOrdersSummary.getOrderSummary [ordExec]).executedOrders : ℚ)) /
        (((UseOrdersSummary.getOrderSummary [ordExec]).totalOrders : ℚ))) :=
  (C9_order_summary [ordExec]).2.2.1 (by decide)

/-- C10: convertToMarketData returns at most two items, every returned
item has a nonzero price, and a DAY_AHEAD (respectively REAL_TIME) item
is present exactly when the corresponding input point exists with a
truthy price — an input price that is 0, missing or NaN yields no item
for that market. -/
theorem C10_convert_to_market_data (toIso : String → String) (now : String)
    (raw : MarketService.RawSummary) :
    (MarketService.convertToMarketData toIso now raw).length ≤ 2 ∧
    ((MarketService.convertToMarketData toIso now raw).all fun m =>
      decide (m.price ≠ 0)) = true ∧
    ((MarketService.convertToMarketData toIso now raw).any fun m =>
      decide (m.market = MarketService.MarketType.DAY_AHEAD)) =
      MarketService.pointTruthy raw.day_ahead ∧
    ((MarketService.convertToMarketData toIso now raw).any fun m =>
      decide (m.market = MarketService.MarketType.REAL_TIME)) =
      MarketService.pointTruthy raw.real_time := by
  rcases raw with ⟨da, rt⟩
  rcases da with _ | p₁ <;> rcases rt with _ | p₂
  · simp [MarketService.convertToMarketData, MarketService.pointTruthy]
  · by_cases h₂ : truthyOptQ p₂.price = true
    · simp [MarketService.convertToMarketData, MarketService.pointTruthy,
        MarketService.convertPoint, h₂, jsNumOr_ne_zero h₂]
    · simp [MarketService.convertToMarketData, MarketService.pointTruthy,
        MarketService.convertPoint, h₂]
  · by_cases h₁ : truthyOptQ p₁.price = true
    · simp [MarketService.convertToMarketData, MarketService.pointTruthy,
        MarketService.convertPoint, h₁, jsNumOr_ne_zero h₁]
    · simp [MarketService.convertToMarketData, MarketService.pointTruthy,
        MarketService.convertPoint, h₁]
  · by_cases h₁ : truthyOptQ p₁.price = true <;>
      by_cases h₂ : truthyOptQ p₂.price = true
    · simp [MarketService.convertToMarketData, MarketService.pointTruthy,
        MarketService.convertPoint, h₁, h₂, jsNumOr_ne_zero h₁,
        jsNumOr_ne_zero h₂]
    · simp [MarketService.convertToMarketData, MarketService.pointTruthy,
        MarketService.convertPoint, h₁, h₂, jsNumOr_ne_zero h₁]
    · simp [MarketService.convertToMarketData, MarketService.pointTruthy,
        MarketService.convertPoint, h₁, h₂, jsNumOr_ne_zero h₂]
    · simp [MarketService.convertToMarketData, MarketService.pointTruthy,
        MarketService.convertPoint, h₁, h₂]
